import Mathlib

set_option maxHeartbeats 1000000
set_option maxRecDepth 4000

namespace InsightSnap

/-!
Shallow embedding of the AI Analysis Pipeline of the InsightSnap backend
(`src/services/ai/queryExpansion.js`, `src/services/ai/ollamaClient.js`).
JavaScript strings are modelled as `List Char`; JavaScript numbers as `ℚ`;
fallible operations as `Option`/`Except`; the language-model oracle as an
explicit argument supplying the response text (or `none` when the HTTP call
throws / yields no usable text).
-/

/-! ### Character and string helpers mirroring JavaScript string primitives -/

/-- Lower-casing of an ASCII character (used for `toLowerCase` and the
case-insensitive fenced-block regexes). -/
def charLower (c : Char) : Char :=
if 'A' ≤ c ∧ c ≤ 'Z' then Char.ofNat (c.toNat + 32) else c

/-- Whitespace recognised by JavaScript `String.prototype.trim`. -/
def jsWs (c : Char) : Bool :=
c = ' ' ∨ c = '\t' ∨ c = '\n' ∨ c = '\r' ∨ c = '\x0b' ∨ c = '\x0c'

/-- Left part of `trim`. -/
def trimLeftJS (l : List Char) : List Char := l.dropWhile jsWs

/-- JavaScript `s.trim()`. -/
def trimJS (l : List Char) : List Char :=
(trimLeftJS ((trimLeftJS l).reverse)).reverse

/-- JavaScript `s.toLowerCase()` (ASCII fragment). -/
def toLowerJS (l : List Char) : List Char := l.map charLower

/-- JavaScript `s.includes(pat)`. -/
def isSubstr (pat : List Char) : List Char → Bool
| [] => pat.isEmpty
| c :: t => pat.isPrefixOf (c :: t) || isSubstr pat t

/-- JavaScript `s.indexOf(c)` for a single-character needle, as an `Option`
(`none` plays the role of `-1`). -/
def findChar (c : Char) : List Char → Option Nat
| [] => none
| x :: t => if x = c then some 0 else (findChar c t).map (· + 1)

/-- JavaScript `s.replace(c, r)` with one-character string pattern:
replaces only the first occurrence. -/
def replaceFirstChar (c r : Char) : List Char → List Char
| [] => []
| x :: t => if x = c then r :: t else x :: replaceFirstChar c r t

/-! ### JSON values and a parser modelling `JSON.parse` -/

/-- Exact decimal number `m * 10 ^ e`, the value of a JSON number literal
(kept unreduced so that all comparisons are pure integer arithmetic). -/
structure Decimal where
  m : Int
  e : Int
deriving DecidableEq

/-- `d ≤ n` as exact rationals. -/
def Decimal.leInt (d : Decimal) (n : Int) : Bool :=
  if 0 ≤ d.e then d.m * 10 ^ d.e.toNat ≤ n else d.m ≤ n * 10 ^ (-d.e).toNat

/-- `n ≤ d` as exact rationals. -/
def Decimal.geInt (d : Decimal) (n : Int) : Bool :=
  if 0 ≤ d.e then n ≤ d.m * 10 ^ d.e.toNat else n * 10 ^ (-d.e).toNat ≤ d.m

/-- The integer value of `d`, when `d` is a whole number. -/
def Decimal.toInt? (d : Decimal) : Option Int :=
  if 0 ≤ d.e then some (d.m * 10 ^ d.e.toNat)
  else if d.m % (10 : Int) ^ (-d.e).toNat = 0 then some (d.m / (10 : Int) ^ (-d.e).toNat)
  else none

/-- JSON value (numbers carried as exact decimals, strings as `List Char`). -/
inductive Json where
| null : Json
| bool (b : Bool) : Json
| num (d : Decimal) : Json
| str (s : List Char) : Json
| arr (elems : List Json) : Json
| obj (fields : List (List Char × Json)) : Json

/-- JSON-grammar whitespace. -/
def jsonWsCh (c : Char) : Bool :=
c = ' ' ∨ c = '\t' ∨ c = '\n' ∨ c = '\r'

/-- Skip JSON whitespace. -/
def skipWsJ (l : List Char) : List Char := l.dropWhile jsonWsCh

/-- Hexadecimal digit value. -/
def hexVal? (c : Char) : Option Nat :=
if '0' ≤ c ∧ c ≤ '9' then some (c.toNat - 48)
else if 'a' ≤ c ∧ c ≤ 'f' then some (c.toNat - 87)
else if 'A' ≤ c ∧ c ≤ 'F' then some (c.toNat - 55)
else none

/-- Single-character JSON escape codes. -/
def escChar? (c : Char) : Option Char :=
if c = '"' then some '"'
else if c = '\\' then some '\\'
else if c = '/' then some '/'
else if c = 'b' then some '\x08'
else if c = 'f' then some '\x0c'
else if c = 'n' then some '\n'
else if c = 'r' then some '\r'
else if c = 't' then some '\t'
else none

/-- Parse the body of a JSON string after the opening quote; returns the
decoded content and the remaining input after the closing quote. -/
def parseStringBody : Nat → List Char → Option (List Char × List Char)
| 0, _ => none
| _, [] => none
| fuel + 1, c :: rest =>
  if c = '"' then some ([], rest)
  else if c = '\\' then
    match rest with
    | [] => none
    | e :: rest2 =>
      if e = 'u' then
        match rest2 with
        | h1 :: h2 :: h3 :: h4 :: rest3 =>
          match hexVal? h1, hexVal? h2, hexVal? h3, hexVal? h4 with
          | some a, some b, some c2, some d =>
            (parseStringBody fuel rest3).map
              (fun pr => (Char.ofNat (((a * 16 + b) * 16 + c2) * 16 + d) :: pr.1, pr.2))
          | _, _, _, _ => none
        | _ => none
      else
        match escChar? e with
        | some ec => (parseStringBody fuel rest2).map (fun pr => (ec :: pr.1, pr.2))
        | none => none
  else if c.toNat < 32 then none
  else (parseStringBody fuel rest).map (fun pr => (c :: pr.1, pr.2))

/-- Decimal digit predicate. -/
def isDigitCh (c : Char) : Bool := '0' ≤ c ∧ c ≤ '9'

/-- Digit list to natural number. -/
def digitsToNat (l : List Char) : Nat := l.foldl (fun a c => a * 10 + (c.toNat - 48)) 0

/-- Parse the optional exponent part of a JSON number; when the exponent is
syntactically incomplete the input is left untouched (the parse then fails
at a higher level on the leftover characters, matching `JSON.parse`). -/
def parseExponent (l : List Char) : Int × List Char :=
match l with
| [] => (0, [])
| c :: t =>
  if c = 'e' ∨ c = 'E' then
    let st : Int × List Char :=
      match t with
      | '+' :: u => (1, u)
      | '-' :: u => (-1, u)
      | _ => (1, t)
    let ds := st.2.takeWhile isDigitCh
    if ds = [] then (0, c :: t)
    else (st.1 * (digitsToNat ds : Int), st.2.drop ds.length)
  else (0, c :: t)

/-- Parse a JSON number per the `JSON.parse` grammar (optional minus, no
leading zeroes, optional fraction and exponent). -/
def parseNumberCore (l : List Char) : Option (Decimal × List Char) :=
  let neg := l.head? = some '-'
  let l1 := if neg then l.drop 1 else l
  let ip := l1.takeWhile isDigitCh
  let l2 := l1.drop ip.length
  if ip = [] then none
  else if 1 < ip.length ∧ ip.head? = some '0' then none
  else
    let hasFrac := l2.head? = some '.'
    let fp := if hasFrac then (l2.drop 1).takeWhile isDigitCh else []
    if hasFrac ∧ fp = [] then none
    else
      let l3 := if hasFrac then (l2.drop 1).drop fp.length else l2
      let er := parseExponent l3
      let mag : Int := (digitsToNat (ip ++ fp) : Int)
      some ({ m := if neg then -mag else mag, e := er.1 - fp.length }, er.2)

/-- Parsing mode: a single value, the elements of an array after its `[`,
or the members of an object after its `{` (`first` = before any item). -/
inductive PMode where
| value : PMode
| elems (first : Bool) : PMode
| fields (first : Bool) : PMode

/-- Intermediate parse result for the three modes. -/
inductive PRes where
| val (j : Json) : PRes
| elems (l : List Json) : PRes
| fields (l : List (List Char × Json)) : PRes

/-- Fuel-indexed recursive-descent parser mirroring the grammar accepted by
`JSON.parse`; mode `.value` parses one value, the other modes parse the item
lists of arrays and objects. Returns the result and remaining input. -/
def parseStep : Nat → PMode → List Char → Option (PRes × List Char)
| 0, _, _ => none
| fuel + 1, .value, l =>
  match skipWsJ l with
  | [] => none
  | c :: rest =>
    if c = '"' then
      (parseStringBody (rest.length + 1) rest).map (fun pr => (PRes.val (Json.str pr.1), pr.2))
    else if c = '\x7b' then
      (parseStep fuel (.fields true) rest).bind (fun pr =>
        match pr.1 with
        | .fields fs => some (PRes.val (Json.obj fs), pr.2)
        | _ => none)
    else if c = '[' then
      (parseStep fuel (.elems true) rest).bind (fun pr =>
        match pr.1 with
        | .elems es => some (PRes.val (Json.arr es), pr.2)
        | _ => none)
    else if "true".data.isPrefixOf (c :: rest) then some (PRes.val (Json.bool true), rest.drop 3)
    else if "false".data.isPrefixOf (c :: rest) then some (PRes.val (Json.bool false), rest.drop 4)
    else if "null".data.isPrefixOf (c :: rest) then some (PRes.val Json.null, rest.drop 3)
    else (parseNumberCore (c :: rest)).map (fun pr => (PRes.val (Json.num pr.1), pr.2))
| fuel + 1, .elems first, l =>
  let l0 := skipWsJ l
  if first ∧ l0.head? = some ']' then some (PRes.elems [], l0.drop 1)
  else
    match parseStep fuel .value l0 with
    | some (.val v, r) =>
      (match skipWsJ r with
       | ',' :: r1 =>
         (parseStep fuel (.elems false) r1).bind (fun pr =>
           match pr.1 with
           | .elems es => some (PRes.elems (v :: es), pr.2)
           | _ => none)
       | ']' :: r1 => some (PRes.elems [v], r1)
       | _ => none)
    | _ => none
| fuel + 1, .fields first, l =>
  let l0 := skipWsJ l
  if first ∧ l0.head? = some '\x7d' then some (PRes.fields [], l0.drop 1)
  else
    match l0 with
    | '"' :: r =>
      (match parseStringBody (r.length + 1) r with
       | none => none
       | some (k, r1) =>
         match skipWsJ r1 with
         | ':' :: r2 =>
           (match parseStep fuel .value r2 with
            | some (.val v, r3) =>
              (match skipWsJ r3 with
               | ',' :: r4 =>
                 (parseStep fuel (.fields false) r4).bind (fun pr =>
                   match pr.1 with
                   | .fields fs => some (PRes.fields ((k, v) :: fs), pr.2)
                   | _ => none)
               | '\x7d' :: r4 => some (PRes.fields [(k, v)], r4)
               | _ => none)
            | _ => none)
         | _ => none)
    | _ => none

/-- `JSON.parse` on a whole string: one value, only whitespace after it. -/
def parseJson (l : List Char) : Option Json :=
match parseStep (2 * l.length + 4) .value l with
| some (.val j, r) => if skipWsJ r = [] then some j else none
| _ => none

/-- Whether `JSON.parse` succeeds on the string. -/
def jsonParses (l : List Char) : Bool := (parseJson l).isSome

example : jsonParses "\x7b\"a\":[1]\x7d".data = true := by decide
example : jsonParses "[\"[\"]".data = true := by decide
example : jsonParses "[1, 2".data = false := by decide
example : jsonParses "\x7b\"relevant\": [1, 2.5, -3, 1e2]\x7d".data = true := by decide
example : parseJson "null".data = some Json.null := rfl
example : jsonParses "01".data = false := by decide
example : jsonParses " \"a\\n\" ".data = true := by decide

/-! ### `AIUtils.extractJSON` (`src/services/ai/queryExpansion.js`, lines 235-309)

The response extractor: strip markdown fences, drop prose before the first
`[` (falling back to the first `{`), bracket-depth match, and on failure
trial-parse shrinking prefixes; as a last resort return the cleaned text. -/

/-- Case-insensitive match of a (lower-case) pattern against the front of the
input; returns the rest on success. Mirrors the fixed patterns of the fence
regexes `/```json\n?/gi` and `/```\n?/g`. -/
def matchCI : List Char → List Char → Option (List Char)
| [], l => some l
| _ :: _, [] => none
| p :: ps, c :: cs => if charLower c = p then matchCI ps cs else none

/-- One global regex replacement pass deleting every occurrence of `pat`
followed by an optional newline (scanning left to right, as `String.replace`
with a global regex and empty replacement does). -/
def stripPass (pat : List Char) : Nat → List Char → List Char
| 0, l => l
| _ + 1, [] => []
| fuel + 1, c :: cs =>
  match matchCI pat (c :: cs) with
  | some rest =>
    (match rest with
     | '\n' :: r2 => stripPass pat fuel r2
     | r2 => stripPass pat fuel r2)
  | none => c :: stripPass pat fuel cs

/-- `replace(/```json\n?/gi, '').replace(/```\n?/g, '')`. -/
def stripFences (l : List Char) : List Char :=
  let p1 := stripPass "```json".data l.length l
  stripPass "```".data p1.length p1

/-- The bracket-depth scan of `extractJSON`: starting at index 0, track the
count of `openC` minus `closeC` (counting every occurrence, including ones
inside string literals) and return the first index `i > 0` where the count
is zero. -/
def scanBracket (openC closeC : Char) : List Char → Int → Nat → Option Nat
| [], _, _ => none
| c :: rest, depth, i =>
  let d := depth + (if c = openC then 1 else 0) - (if c = closeC then 1 else 0)
  if d = 0 ∧ 0 < i then some i else scanBracket openC closeC rest d (i + 1)

/-- The "complete JSON structure" found by bracket matching, when the cleaned
text starts with `[` or `{`. -/
def scanTake (l : List Char) : Option (List Char) :=
match l with
| [] => none
| c :: _ =>
  if c = '[' then (scanBracket '[' ']' l 0 0).map (fun i => l.take (i + 1))
  else if c = '\x7b' then (scanBracket '\x7b' '\x7d' l 0 0).map (fun i => l.take (i + 1))
  else none

/-- The trial-parse fallback: try prefixes of length `e`, `e-1`, ..., `1`
and return the first (i.e. longest) one accepted by `JSON.parse`. -/
def trialScan : Nat → List Char → Option (List Char)
| 0, _ => none
| e + 1, l =>
  let cand := l.take (e + 1)
  if jsonParses cand then some cand else trialScan e l

/-- Drop everything before the first `[` (or, failing that, the first `{`):
the prose-stripping step of `extractJSON`. -/
def dropProse (c1 : List Char) : List Char :=
  match (match findChar '[' c1 with
         | some i => some i
         | none => findChar '\x7b' c1) with
  | some i => if 0 < i then c1.drop i else c1
  | none => c1

/-- The cleaned candidate text of `extractJSON`: trim, strip fences, trim,
then drop the prose before the first bracket. -/
def cleanJSON (input : List Char) : List Char :=
  dropProse (trimJS (stripFences (trimJS input)))

/-- `AIUtils.extractJSON` (the `queryExpansion.js` utils variant with the
trial-parse fallback). `none` models the `null` return for empty/whitespace
input; otherwise some string is always returned. -/
def extractJSON (input : List Char) : Option (List Char) :=
  if trimJS input = [] then none
  else
    let c2 := cleanJSON input
    match scanTake c2 with
    | some m => some m
    | none =>
      match trialScan c2.length c2 with
      | some m => some m
      | none => some c2

example : extractJSON "\x7b\"a\":[1]\x7d".data = some "[1]".data := rfl
example : extractJSON "Sure! Here you go: [1, 2, \x7b\"x\":3\x7d] thanks".data
    = some "[1, 2, \x7b\"x\":3\x7d]".data := rfl
example : extractJSON "```json\n[1, 2]\n```".data = some "[1, 2]".data := rfl
example : extractJSON "[\"[\"]".data = some "[\"[\"]".data := rfl
example : extractJSON "[1, 2".data = some "[1, 2".data := rfl
example : extractJSON "   ".data = none := rfl
example : extractJSON "no brackets at all".data = some "no brackets at all".data := rfl
example : extractJSON "\x7b\"a\":\"\x7d\"\x7d".data = some "\x7b\"a\":\"\x7d".data := rfl

/-! ### Data model -/

/-- A normalized content record from the acquisition collaborator. The
pipeline only selects and labels posts, never mutates them. -/
structure Post where
  id : List Char
  content : List Char
  source : List Char
  platform : List Char
  engagement : ℚ
  timestamp : List Char
  url : List Char
deriving DecidableEq

/-- The `relevanceAnalysis` summary attached to a categorization result. -/
structure RelevanceAnalysis where
  totalRelevantPosts : ℚ
  relevanceScore : ℚ
  excludedPromotedContent : ℚ
  excludedIrrelevantPosts : ℚ
deriving DecidableEq

/-- The three-way sentiment/intent partition with its summary. -/
structure CategorizationResult where
  painPoints : List Post
  trendingIdeas : List Post
  contentIdeas : List Post
  relevanceAnalysis : RelevanceAnalysis
deriving DecidableEq

/-- A focus area produced by query expansion. `category` keeps the raw JSON
value the oracle supplied (the code stores `subtopic.category || 'experiences'`
without a type check); `isCustom`/`isFallback` default to absent-`false`. -/
structure FocusArea where
  title : List Char
  description : List Char
  expandedQuery : List Char
  category : Json
  isCustom : Bool
  isFallback : Bool

/-- Truthiness of a JSON value under JavaScript coercion. -/
def truthy : Json → Bool
| .null => false
| .bool b => b
| .num d => decide (d.m ≠ 0)
| .str s => decide (s ≠ [])
| .arr _ => true
| .obj _ => true

/-- JavaScript property lookup on a parsed JSON object: with duplicate keys,
`JSON.parse` keeps the last occurrence. -/
def lookupField (fields : List (List Char × Json)) (key : List Char) : Option Json :=
((fields.filter (fun kv => kv.1 = key)).getLast?).map (·.2)

/-! ### `QueryExpansionService` (`src/services/ai/queryExpansion.js`, lines 15-202)

`generateQueryExpansion` takes the user's query and, per attempt, the oracle
response (`none` when the Ollama call threw). Up to 3 responses are tried;
afterwards the deterministic fallback is used with `isFallback` set. -/

/-- The custom slot appended after the generated focus areas. -/
def customFocusArea (query : List Char) : FocusArea :=
  { title := "Custom Topic".data
    description := "Specify your own specific area of interest".data
    expandedQuery := query
    category := Json.str "custom".data
    isCustom := true
    isFallback := false }

/-- The validation filter on a parsed subtopic: a (non-null) object whose
`title`, `description` and `expandedQuery` are truthy strings. -/
def validFocus (j : Json) : Bool :=
match j with
| .obj fields =>
  (match lookupField fields "title".data with | some (.str s) => decide (s ≠ []) | _ => false)
  && (match lookupField fields "description".data with | some (.str s) => decide (s ≠ []) | _ => false)
  && (match lookupField fields "expandedQuery".data with | some (.str s) => decide (s ≠ []) | _ => false)
| _ => false

/-- Read a string field, defaulting to the empty string (`subtopic.f || ''`). -/
def strField (fields : List (List Char × Json)) (key : List Char) : List Char :=
match lookupField fields key with
| some (.str s) => s
| _ => []

/-- The cleaning map applied to each valid subtopic: trim the three string
fields and default a falsy/absent `category` to `'experiences'`. -/
def cleanFocus (j : Json) : FocusArea :=
match j with
| .obj fields =>
  { title := trimJS (strField fields "title".data)
    description := trimJS (strField fields "description".data)
    expandedQuery := trimJS (strField fields "expandedQuery".data)
    category :=
      (match lookupField fields "category".data with
       | some v => if truthy v then v else Json.str "experiences".data
       | none => Json.str "experiences".data)
    isCustom := false
    isFallback := false }
| _ =>
  { title := [], description := [], expandedQuery := []
    category := Json.str "experiences".data, isCustom := false, isFallback := false }

/-- The "(Alternate)" clone used to pad short lists up to 6 entries. -/
def altOf (f : FocusArea) : FocusArea :=
  { f with title := f.title ++ " (Alternate)".data
           expandedQuery := f.expandedQuery ++ " alternative".data }

/-- The `while (validSubtopics.length < 6 && validSubtopics.length > 0)`
padding loop (fuel 6 suffices: the list grows by one per iteration). -/
def padTo6 : Nat → List FocusArea → List FocusArea
| 0, l => l
| fuel + 1, l =>
  if l.length < 6 ∧ 0 < l.length then
    match l.getLast? with
    | some last => padTo6 fuel (l ++ [altOf last])
    | none => l
  else l

/-- One attempt of the expansion loop: reject empty responses, extract JSON,
parse it, validate/clean/cap the array, pad to 6, append the custom slot and
cap at 7. `none` means the attempt `continue`s to the next one. -/
def attemptExpansion (query : List Char) (resp : Option (List Char)) :
    Option (List FocusArea) :=
match resp with
| none => none
| some s =>
  if trimJS s = [] then none
  else
    match extractJSON s with
    | none => none
    | some m =>
      if m = [] then none
      else
        match parseJson m with
        | none => none
        | some j =>
          match j with
          | .arr elems =>
            if elems.length = 0 then none
            else
              let valid := ((elems.filter validFocus).map cleanFocus).take 6
              if valid.length = 0 then none
              else some ((padTo6 6 valid ++ [customFocusArea query]).take 7)
          | _ => none

/-- The retry loop over (up to 3) oracle responses. -/
def runAttempts (query : List Char) : List (Option (List Char)) → Option (List FocusArea)
| [] => none
| r :: rest =>
  match attemptExpansion query r with
  | some v => some v
  | none => runAttempts query rest

/-- `QueryExpansionService.getFallbackQueryExpansion`: the keyword-matched
template bank plus the custom slot. -/
def getFallbackQueryExpansion (query : List Char) : List FocusArea :=
  let lowerQuery := toLowerJS query
  let mk : List Char → List Char → List Char → List Char → FocusArea :=
    fun t d eq c =>
      { title := t, description := d, expandedQuery := eq
        category := Json.str c, isCustom := false, isFallback := false }
  let subtopics :=
    if isSubstr "sales".data lowerQuery || isSubstr "marketing".data lowerQuery
        || isSubstr "business".data lowerQuery then
      [ mk "Sales Struggles".data "Real sales challenges and frustrations".data
          (query ++ " struggling problems difficult".data) "problems".data,
        mk "Sales Success".data "Success stories and wins".data
          (query ++ " success story win achieved".data) "success".data,
        mk "Sales Tools".data "Tools and software people use".data
          (query ++ " tools software CRM platform".data) "tools".data,
        mk "Sales Questions".data "Questions people ask about sales".data
          (query ++ " how to help advice".data) "questions".data,
        mk "Sales Experiences".data "Personal sales experiences and stories".data
          (query ++ " experience story happened".data) "experiences".data,
        mk "Sales Trends".data "Current trends in sales".data
          (query ++ " trends latest popular".data) "trends".data ]
    else if isSubstr "plant".data lowerQuery || isSubstr "disease".data lowerQuery then
      [ mk "Plant Problems".data "Plant issues and disease symptoms".data
          (query ++ " dying yellow leaves problems".data) "problems".data,
        mk "Plant Care".data "How people care for their plants".data
          (query ++ " care tips watering fertilizing".data) "experiences".data,
        mk "Plant Solutions".data "What worked to fix plant issues".data
          (query ++ " fixed cured treatment worked".data) "success".data,
        mk "Plant Questions".data "Questions about plant care".data
          (query ++ " help identify what wrong".data) "questions".data,
        mk "Plant Products".data "Products and treatments people use".data
          (query ++ " fertilizer spray treatment product".data) "tools".data,
        mk "Plant Trends".data "Trending plant topics".data
          (query ++ " trending popular viral".data) "trends".data ]
    else
      [ mk "Real Experiences".data "Personal experiences and stories".data
          (query ++ " experience story happened personal".data) "experiences".data,
        mk "Common Problems".data "Problems and frustrations people have".data
          (query ++ " problems issues struggling difficult".data) "problems".data,
        mk "Success Stories".data "What worked and success stories".data
          (query ++ " success worked amazing great".data) "success".data,
        mk "Questions Asked".data "Questions people ask about this".data
          (query ++ " help advice how to".data) "questions".data,
        mk "Tools & Products".data "Tools and products people mention".data
          (query ++ " tools products software app".data) "tools".data,
        mk "Current Trends".data "What's trending about this topic".data
          (query ++ " trends latest popular viral".data) "trends".data ]
  subtopics ++ [customFocusArea query]

/-- The `fallback.forEach(item => item.isFallback = true)` marking. -/
def flagFallback (l : List FocusArea) : List FocusArea :=
  l.map (fun f => { f with isFallback := true })

/-- `QueryExpansionService.generateQueryExpansion`: try the oracle responses
in order; if every attempt fails, return the flagged deterministic fallback
(the outer catch takes the same fallback path). -/
def generateQueryExpansion (query : List Char) (attempts : List (Option (List Char))) :
    List FocusArea :=
match runAttempts query attempts with
| some v => v
| none => flagFallback (getFallbackQueryExpansion query)

example :
    (generateQueryExpansion "cats".data [none, none, none]).length = 7 := rfl
example :
    (generateQueryExpansion "cats".data
      [some "[\x7b\"title\":\"T\",\"description\":\"D\",\"expandedQuery\":\"E\"\x7d]".data]).length
    = 7 := rfl

/-! ### `AIUtils` index mapping and rebalancer (`queryExpansion.js`, lines 414-464) -/

/-- JavaScript `posts[index - 1]` for a JSON-number index: `undefined`
(`none`) unless the index is a whole number hitting the array. -/
def postAt (posts : List Post) (i : Decimal) : Option Post :=
  match i.toInt? with
  | some k => if 1 ≤ k then posts[(k - 1).toNat]? else none
  | none => none

/-- `AIUtils.getCategorizedPosts`: keep indices with `1 ≤ index ≤ length`,
map them through `posts[index - 1]`, and drop non-posts (`filter(Boolean)`). -/
def getCategorizedPosts (posts : List Post) (indices : List Decimal) : List Post :=
  (((indices.filter (fun i => i.geInt 1 && i.leInt posts.length)).map
      (fun i => postAt posts i)).reduceOption)

/-- Numeric elements of a JSON array taken as candidate indices. Non-number
elements are dropped here: under full JavaScript coercion a numeric string
such as `"2"` would pass `index >= 1` and select `posts["2" - 1]` like the
number 2 does, so this model under-approximates which elements act as
indices; every modelled path is unaffected (selected posts still come from
the input list, and no modelled response carries string indices). -/
def jsonIndices (l : List Json) : List Decimal :=
  l.filterMap (fun j => match j with | .num d => some d | _ => none)

/-- Reading an index-array property (`result.key || []`) off a parsed JSON
value, with JavaScript semantics: property access on `null` throws (`none`);
a missing or falsy property defaults to `[]`; a truthy non-array value makes
the subsequent `.filter` throw (`none`); an array yields its indices. -/
def indexArrayField (j : Json) (key : List Char) : Option (List Decimal) :=
match j with
| .null => none
| .obj fields =>
  (match lookupField fields key with
   | none => some []
   | some v =>
     if truthy v then
       match v with
       | .arr l => some (jsonIndices l)
       | _ => none
     else some [])
| _ => some []

/-- The refill size `Math.max(1, Math.floor(allPosts.length / 10))`. -/
def minPostsPerCategory (allPosts : List Post) : Nat :=
  max 1 (allPosts.length / 10)

/-- First mutation of the rebalancer: refill an empty `painPoints` from the
current `trendingIdeas ++ contentIdeas`. -/
def ensureStep1 (result : CategorizationResult) (allPosts : List Post) : CategorizationResult :=
  if result.painPoints.length = 0 ∧ 0 < allPosts.length then
    { result with painPoints :=
        (result.trendingIdeas ++ result.contentIdeas).take (minPostsPerCategory allPosts) }
  else result

/-- Second mutation: refill an empty `trendingIdeas` from the current
`painPoints ++ contentIdeas`. -/
def ensureStep2 (result : CategorizationResult) (allPosts : List Post) : CategorizationResult :=
  if result.trendingIdeas.length = 0 ∧ 0 < allPosts.length then
    { result with trendingIdeas :=
        (result.painPoints ++ result.contentIdeas).take (minPostsPerCategory allPosts) }
  else result

/-- Third mutation: refill an empty `contentIdeas` from the current
`painPoints ++ trendingIdeas`. -/
def ensureStep3 (result : CategorizationResult) (allPosts : List Post) : CategorizationResult :=
  if result.contentIdeas.length = 0 ∧ 0 < allPosts.length then
    { result with contentIdeas :=
        (result.painPoints ++ result.trendingIdeas).take (minPostsPerCategory allPosts) }
  else result

/-- `AIUtils.ensureAllCategoriesHaveResults` (the rebalancer): the three
sequential in-place refills of the source, in order. -/
def ensureAllCategoriesHaveResults (result : CategorizationResult) (allPosts : List Post) :
    CategorizationResult :=
  ensureStep3 (ensureStep2 (ensureStep1 result allPosts) allPosts) allPosts

/-! ### `AIService` relevance filtering (`src/services/ai/ollamaClient.js`,
lines 707-818)

`filterBatchRelevance` takes the batch and the oracle response for it
(`none` models the Ollama call throwing or yielding no text); every failure
path returns the whole batch - and so does the success path, because the
batch-count log line at line 810 interpolates `Math.floor(offset/batchSize)`
where `batchSize` is a `const` local to `filterRelevantPosts` and unbound in
`filterBatchRelevance`, so the statement throws a `ReferenceError` into the
same fail-open `catch` and `return relevantPosts` is dead code.
`filterRelevantPosts` partitions the posts into batches of 50 and
concatenates the per-batch results; its own `catch` returns all input
posts. -/

/-- Batch size used by `filterRelevantPosts`. -/
def relevanceBatchSize : Nat := 50

/-- `AIService.filterBatchRelevance`: parse the response as JSON, read
`result.relevant || []`, keep in-range indices and map them to posts - but
before the computed `relevantPosts` can be returned, the log line
`` logger.info(`📊 Batch ${Math.floor(offset/batchSize) + 1}: ...`) ``
reads the unbound identifier `batchSize` (local to `filterRelevantPosts`)
and its `ReferenceError` lands in the fail-open `catch`, which returns the
whole batch on this path too. -/
def filterBatchRelevance (posts : List Post) (resp : Option (List Char)) : List Post :=
match resp with
| none => posts
| some s =>
  match parseJson s with
  | none => posts
  | some j =>
    match indexArrayField j "relevant".data with
    | none => posts
    | some idx =>
      let _relevantPosts := getCategorizedPosts posts idx
      posts

/-- Split a list into chunks of `n` (`n > 0`), in order. -/
def chunksF (n : Nat) : Nat → List Post → List (List Post)
| 0, l => if l.length = 0 then [] else [l]
| fuel + 1, l => if l.length = 0 then [] else l.take n :: chunksF n fuel (l.drop n)

/-- The batches `posts.slice(i, i + batchSize)` of the filtering loop. -/
def relevanceBatches (posts : List Post) : List (List Post) :=
  chunksF relevanceBatchSize posts.length posts

/-- The loop body of `filterRelevantPosts`: filter each batch with its own
oracle response and concatenate in batch order. -/
def filterRelevantPostsBody (posts : List Post) (oracle : Nat → Option (List Char)) :
    List Post :=
  ((relevanceBatches posts).enum.map (fun p => filterBatchRelevance p.2 (oracle p.1))).flatten

/-- The stage-level `try`/`catch` of `filterRelevantPosts`: a thrown stage
body is answered with all input posts. -/
def filterRelevantPostsGuard (posts : List Post) (body : Except Unit (List Post)) : List Post :=
match body with
| .ok r => r
| .error _ => posts

/-- `AIService.filterRelevantPosts`: the batched loop wrapped in the
fail-open guard (the loop body itself never throws, since every batch
failure is caught inside `filterBatchRelevance`). -/
def filterRelevantPosts (posts : List Post) (oracle : Nat → Option (List Char)) : List Post :=
  filterRelevantPostsGuard posts (Except.ok (filterRelevantPostsBody posts oracle))

/-! ### `SegregationService` (`queryExpansion.js`, lines 724-1021) -/

/-- Result of the focused categorization stage: either a list of posts
(possibly empty, for parse/call failures) or the structured
"no relevant content" signal. -/
inductive CategoryResult where
| posts (l : List Post) : CategoryResult
| noContent (message : List Char) (availablePosts totalPosts : Nat) : CategoryResult

/-- The user-facing message of the no-relevant-content signal
(`category.replace('-', ' ')` replaces only the first hyphen). -/
def noContentMessage (category expandedQuery : List Char) : List Char :=
  "We couldn't find relevant ".data ++ replaceFirstChar '-' ' ' category
    ++ " content for \"".data ++ expandedQuery
    ++ "\" in the current time period.".data

/-- The parsed JSON of a segregation response: `extractJSON` then
`JSON.parse` — when `extractJSON` returns `null`, `JSON.parse(null)`
parses the string `"null"` and yields the JSON `null` value. -/
def segParsedResponse (s : List Char) : Option Json :=
match extractJSON s with
| none => some Json.null
| some m => parseJson m

/-- `SegregationService.performCategorySpecificAnalysis`: parse the oracle
response (parse failure → `[]`), read `result.relevant || []` (a throw here
hits the outer catch → `[]`), map in-range indices to posts, and return the
no-relevant-content signal when fewer than 1 post survives. `resp = none`
models the Ollama call failing (outer catch → `[]`). -/
def performCategorySpecificAnalysis (posts : List Post) (expandedQuery category : List Char)
    (resp : Option (List Char)) : CategoryResult :=
match resp with
| none => .posts []
| some s =>
  match segParsedResponse s with
  | none => .posts []
  | some j =>
    match indexArrayField j "relevant".data with
    | none => .posts []
    | some idx =>
      let relevantPosts := getCategorizedPosts posts idx
      if relevantPosts.length < 1 then
        .noContent (noContentMessage category expandedQuery) relevantPosts.length posts.length
      else .posts relevantPosts

/-- `SegregationService.aiSentimentAnalysis` (bulk categorization): parse the
response the same way, read the three index arrays, build the three buckets
with `getCategorizedPosts`, and run the rebalancer; every failure is
rethrown to the caller (`Except.error`). -/
def aiSentimentAnalysis (posts : List Post) (resp : Option (List Char)) :
    Except Unit CategorizationResult :=
match resp with
| none => .error ()
| some s =>
  match segParsedResponse s with
  | none => .error ()
  | some j =>
    match indexArrayField j "painPoints".data, indexArrayField j "trendingIdeas".data,
        indexArrayField j "contentIdeas".data with
    | some pp, some ti, some ci =>
      .ok (ensureAllCategoriesHaveResults
        { painPoints := getCategorizedPosts posts pp
          trendingIdeas := getCategorizedPosts posts ti
          contentIdeas := getCategorizedPosts posts ci
          relevanceAnalysis :=
            { totalRelevantPosts := (posts.length : ℚ), relevanceScore := 1
              excludedPromotedContent := 0, excludedIrrelevantPosts := 0 } } posts)
    | _, _, _ => .error ()

/-! ### `OllamaClient.call` option defaulting (`ollamaClient.js`, lines 24-48) -/

/-- The options object accepted by `OllamaClient.call` (absent fields are
`none`; JavaScript `||` defaulting treats `0` and `''` as absent). -/
structure CallOptions where
  model : Option (List Char) := none
  useSegregationModel : Bool := false
  temperature : Option ℚ := none
  max_tokens : Option ℚ := none

/-- Model used for analysis tasks. -/
def analysisModel : List Char := "tinyllama:1.1b".data

/-- Model used for categorization/segregation tasks. -/
def segregationModel : List Char := "gpt2".data

/-- `options.model || (options.useSegregationModel ? segregationModel :
analysisModel)`. -/
def resolvedModel (o : CallOptions) : List Char :=
  let d := if o.useSegregationModel then segregationModel else analysisModel
  match o.model with
  | some m => if m.length = 0 then d else m
  | none => d

/-- The body of the HTTP request `OllamaClient.call` sends to
`/api/generate`. -/
structure GenerateRequest where
  model : List Char
  prompt : List Char
  stream : Bool
  temperature : ℚ
  max_tokens : ℚ
  num_ctx : ℚ

/-- Construction of the request body: `temperature: options.temperature ||
0.3`, `max_tokens: options.max_tokens || (tinyllama ? 800 : 1000)`,
`num_ctx` by model family. -/
def buildRequest (prompt : List Char) (o : CallOptions) : GenerateRequest :=
  let model := resolvedModel o
  let tiny := isSubstr "tinyllama".data model
  { model := model
    prompt := prompt
    stream := false
    temperature :=
      (match o.temperature with
       | some t => if t = 0 then 3 / 10 else t
       | none => 3 / 10)
    max_tokens :=
      (match o.max_tokens with
       | some m => if m = 0 then (if tiny then 800 else 1000) else m
       | none => if tiny then 800 else 1000)
    num_ctx := if tiny then 2048 else 4096 }

/-! ### Concrete sample data for evaluations -/

/-- A concrete post. -/
def samplePost : Post :=
  { id := "p1".data, content := "our CRM is broken".data, source := "u1".data
    platform := "reddit".data, engagement := 5, timestamp := "2024-01-01T00:00:00Z".data
    url := "https://example.com/1".data }

/-- A second concrete post. -/
def samplePost2 : Post :=
  { id := "p2".data, content := "great tips here".data, source := "u2".data
    platform := "x".data, engagement := 9, timestamp := "2024-01-02T00:00:00Z".data
    url := "https://example.com/2".data }

/-- An empty three-way result with the summary the bulk path attaches. -/
def emptyResult : CategorizationResult :=
  { painPoints := [], trendingIdeas := [], contentIdeas := []
    relevanceAnalysis :=
      { totalRelevantPosts := 0, relevanceScore := 0
        excludedPromotedContent := 0, excludedIrrelevantPosts := 0 } }

example :
    filterBatchRelevance [samplePost, samplePost2] (some "oops, no json".data)
    = [samplePost, samplePost2] := rfl
example :
    filterBatchRelevance [samplePost, samplePost2] (some "\x7b\"relevant\":[2,5]\x7d".data)
    = [samplePost, samplePost2] := rfl
example :
    filterBatchRelevance [samplePost, samplePost2] (some "null".data)
    = [samplePost, samplePost2] := rfl
example :
    filterBatchRelevance [samplePost, samplePost2] (some "\x7b\"x\":1\x7d".data)
    = [samplePost, samplePost2] := rfl
example :
    performCategorySpecificAnalysis [samplePost] "q".data "pain-points".data
      (some "\x7b\"relevant\":[]\x7d".data)
    = .noContent "We couldn't find relevant pain points content for \"q\" in the current time period.".data
        0 1 := rfl
example :
    performCategorySpecificAnalysis [samplePost] "q".data "pain-points".data
      (some "garbage".data)
    = .posts [] := rfl
example :
    ensureAllCategoriesHaveResults emptyResult [samplePost]
    = emptyResult := rfl
example :
    (ensureAllCategoriesHaveResults { emptyResult with contentIdeas := [samplePost] }
      [samplePost, samplePost2]).painPoints = [samplePost] := rfl

example : (buildRequest "p".data { temperature := some 0 }).temperature = 3 / 10 := rfl
example : (buildRequest "p".data { temperature := some (1/2) }).temperature = 1 / 2 := by
  norm_num [buildRequest]
example : (buildRequest "p".data {}).max_tokens = 800 := rfl
example : (buildRequest "p".data { useSegregationModel := true }).num_ctx = 4096 := rfl

/-! ### Helper lemmas -/

theorem postAt_mem {posts : List Post} {i : Decimal} {p : Post}
    (h : postAt posts i = some p) : p ∈ posts := by
  unfold postAt at h
  split at h
  · split at h
    · exact List.getElem?_mem h
    · exact absurd h (by simp)
  · exact absurd h (by simp)

theorem getCategorizedPosts_subset {posts : List Post} {indices : List Decimal} {p : Post}
    (h : p ∈ getCategorizedPosts posts indices) : p ∈ posts := by
  unfold getCategorizedPosts at h
  rw [List.reduceOption_mem_iff, List.mem_map] at h
  obtain ⟨i, _, hi⟩ := h
  exact postAt_mem hi

theorem mem_take_append {x : Post} {k : Nat} {A B : List Post}
    (hx : x ∈ (A ++ B).take k) : x ∈ A ∨ x ∈ B :=
  List.mem_append.mp (List.Sublist.mem hx (List.take_sublist _ _))

theorem take_append_subset {S : List Post} {k : Nat} {A B : List Post}
    (hA : ∀ x ∈ A, x ∈ S) (hB : ∀ x ∈ B, x ∈ S) : ∀ x ∈ (A ++ B).take k, x ∈ S :=
  fun x hx => (mem_take_append hx).elim (hA x) (hB x)

/-- A predicate holding on all members of all three buckets. -/
def bucketsSubset (r : CategorizationResult) (S : List Post) : Prop :=
  (∀ x ∈ r.painPoints, x ∈ S) ∧ (∀ x ∈ r.trendingIdeas, x ∈ S) ∧ (∀ x ∈ r.contentIdeas, x ∈ S)

theorem ensureStep1_subset {r : CategorizationResult} {posts S : List Post}
    (h : bucketsSubset r S) : bucketsSubset (ensureStep1 r posts) S := by
  obtain ⟨h1, h2, h3⟩ := h
  unfold ensureStep1
  split
  · exact ⟨take_append_subset h2 h3, h2, h3⟩
  · exact ⟨h1, h2, h3⟩

theorem ensureStep2_subset {r : CategorizationResult} {posts S : List Post}
    (h : bucketsSubset r S) : bucketsSubset (ensureStep2 r posts) S := by
  obtain ⟨h1, h2, h3⟩ := h
  unfold ensureStep2
  split
  · exact ⟨h1, take_append_subset h1 h3, h3⟩
  · exact ⟨h1, h2, h3⟩

theorem ensureStep3_subset {r : CategorizationResult} {posts S : List Post}
    (h : bucketsSubset r S) : bucketsSubset (ensureStep3 r posts) S := by
  obtain ⟨h1, h2, h3⟩ := h
  unfold ensureStep3
  split
  · exact ⟨h1, h2, take_append_subset h1 h2⟩
  · exact ⟨h1, h2, h3⟩

theorem ensureAll_subset {r : CategorizationResult} {posts S : List Post}
    (h : bucketsSubset r S) : bucketsSubset (ensureAllCategoriesHaveResults r posts) S :=
  ensureStep3_subset (ensureStep2_subset (ensureStep1_subset h))

theorem filterBatchRelevance_eq (posts : List Post) (resp : Option (List Char)) :
    filterBatchRelevance posts resp = posts := by
  unfold filterBatchRelevance
  split
  · rfl
  · split
    · rfl
    · split
      · rfl
      · rfl

theorem filterBatchRelevance_subset {posts : List Post} {resp : Option (List Char)} {p : Post}
    (h : p ∈ filterBatchRelevance posts resp) : p ∈ posts := by
  rw [filterBatchRelevance_eq] at h
  exact h

theorem chunksF_flatten {n : Nat} (hn : 0 < n) :
    ∀ (fuel : Nat) (l : List Post), l.length ≤ fuel → (chunksF n fuel l).flatten = l := by
  intro fuel
  induction fuel with
  | zero =>
    intro l hl
    have : l = [] := List.length_eq_zero.mp (Nat.le_zero.mp hl)
    subst this
    rfl
  | succ f ih =>
    intro l hl
    unfold chunksF
    by_cases h0 : l.length = 0
    · rw [if_pos h0]
      exact (List.length_eq_zero.mp h0).symm ▸ rfl
    · rw [if_neg h0]
      have hdrop : (l.drop n).length ≤ f := by
        rw [List.length_drop]
        omega
      rw [List.flatten_cons, ih (l.drop n) hdrop, List.take_append_drop]

/-! ### Claim theorems -/

/-- Claim C10: in `OllamaClient.call`, a caller-supplied `temperature` of 0 is
replaced by the profile default 0.3 and a `max_tokens` of 0 by the profile
default token budget, because option defaulting uses falsy-`||`; consequently
the request temperature is never 0, so the documented range 0-1 is not fully
reachable. -/
theorem ollama_call_option_defaulting (prompt : List Char) (o : CallOptions)
    (ht : o.temperature = some 0) (hm : o.max_tokens = some 0) :
    (buildRequest prompt o).temperature = 3 / 10
    ∧ (buildRequest prompt o).max_tokens
        = (if isSubstr "tinyllama".data (resolvedModel o) then (800 : ℚ) else 1000)
    ∧ ∀ o2 : CallOptions, (buildRequest prompt o2).temperature ≠ 0 := by
  refine ⟨by simp [buildRequest, ht], by simp [buildRequest, hm], fun o2 => ?_⟩
  unfold buildRequest
  rcases o2.temperature with _ | t
  · norm_num
  · by_cases h0 : t = 0
    · simp only [h0, if_pos rfl]
      norm_num
    · simp only [if_neg h0]
      exact h0

/-- Witness for C10 at a concrete options object. -/
theorem ollama_call_option_defaulting_witness :
    ({ temperature := some 0, max_tokens := some 0 } : CallOptions).temperature = some 0
    ∧ ({ temperature := some 0, max_tokens := some 0 } : CallOptions).max_tokens = some 0
    ∧ ((buildRequest "p".data { temperature := some 0, max_tokens := some 0 }).temperature = 3 / 10
       ∧ (buildRequest "p".data { temperature := some 0, max_tokens := some 0 }).max_tokens
           = (if isSubstr "tinyllama".data
                (resolvedModel { temperature := some 0, max_tokens := some 0 })
              then (800 : ℚ) else 1000)
       ∧ ∀ o2 : CallOptions, (buildRequest "p".data o2).temperature ≠ 0) :=
  ⟨rfl, rfl, ollama_call_option_defaulting "p".data _ rfl rfl⟩

/-- Claim C9: in focused categorization, when zero of the oracle's returned
indices map to posts in the input range the stage returns the structured
no-relevant-content signal (with user-facing message and counts) instead of
throwing, and a parse failure (or a failed call) yields an empty posts list
instead of an exception. -/
theorem focused_categorization_signals (posts : List Post)
    (expandedQuery category : List Char) (s : List Char) (j : Json) (idx : List Decimal)
    (hparse : segParsedResponse s = some j)
    (hrel : indexArrayField j "relevant".data = some idx)
    (hzero : getCategorizedPosts posts idx = []) :
    performCategorySpecificAnalysis posts expandedQuery category (some s)
      = .noContent (noContentMessage category expandedQuery) 0 posts.length
    ∧ (∀ s2, segParsedResponse s2 = none →
        performCategorySpecificAnalysis posts expandedQuery category (some s2) = .posts [])
    ∧ performCategorySpecificAnalysis posts expandedQuery category none = .posts [] := by
  refine ⟨?_, fun s2 h2 => ?_, rfl⟩
  · simp only [performCategorySpecificAnalysis, hparse, hrel, hzero]
    simp
  · simp only [performCategorySpecificAnalysis, h2]

/-- Witness for C9: an oracle answer whose mapped index list is empty on a
one-post input (the extractor narrows `{"relevant":[]}` to `[]`, and the
`result.relevant || []` read on the array value defaults to no indices), and
an unparseable oracle answer. -/
theorem focused_categorization_signals_witness :
    segParsedResponse "\x7b\"relevant\":[]\x7d".data = some (Json.arr [])
    ∧ indexArrayField (Json.arr []) "relevant".data = some []
    ∧ getCategorizedPosts [samplePost] [] = []
    ∧ (performCategorySpecificAnalysis [samplePost] "q".data "pain-points".data
        (some "\x7b\"relevant\":[]\x7d".data)
        = .noContent (noContentMessage "pain-points".data "q".data) 0 [samplePost].length
       ∧ (∀ s2, segParsedResponse s2 = none →
           performCategorySpecificAnalysis [samplePost] "q".data "pain-points".data (some s2)
             = .posts [])
       ∧ performCategorySpecificAnalysis [samplePost] "q".data "pain-points".data none
           = .posts []) :=
  ⟨rfl, rfl, rfl, focused_categorization_signals [samplePost] "q".data "pain-points".data
    "\x7b\"relevant\":[]\x7d".data (Json.arr []) [] rfl rfl rfl⟩

theorem filterRelevantPosts_eq (posts : List Post) (oracle : Nat → Option (List Char)) :
    filterRelevantPosts posts oracle = posts := by
  show filterRelevantPostsBody posts oracle = posts
  unfold filterRelevantPostsBody
  have hmap : ((relevanceBatches posts).enum.map
      (fun p => filterBatchRelevance p.2 (oracle p.1)))
      = (relevanceBatches posts).enum.map (fun p => p.2) :=
    List.map_congr_left (fun p _ => filterBatchRelevance_eq p.2 (oracle p.1))
  rw [hmap, List.enum_map_snd]
  exact chunksF_flatten (by decide) posts.length posts le_rfl

/-- Claim C5 (code bug): the fail-open halves of the claim hold - a failed
call or parse returns exactly the batch, and a stage-level throw returns the
entire input list - but "other batches remain AI-filtered" does not: the
batch log line at ollamaClient.js:810 reads `batchSize`, a `const` local to
`filterRelevantPosts` that is unbound in `filterBatchRelevance`, so its
`ReferenceError` lands in the same fail-open `catch`; every batch,
successful or not, is returned whole, `return relevantPosts` is dead code,
and the whole stage returns its input unfiltered for every oracle. On the
concrete failing input the response parses and the intended index mapping
keeps only the second post, yet the whole batch comes back. -/
theorem relevanceFilter_batch_filtering_dead :
    (∀ (posts : List Post) (resp : Option (List Char)),
        filterBatchRelevance posts resp = posts)
    ∧ (∀ (posts : List Post) (oracle : Nat → Option (List Char)),
        filterRelevantPosts posts oracle = posts)
    ∧ (∀ (posts : List Post) (e : Unit), filterRelevantPostsGuard posts (.error e) = posts)
    ∧ parseJson "\x7b\"relevant\":[2]\x7d".data
        = some (Json.obj [("relevant".data, Json.arr [Json.num ⟨2, 0⟩])])
    ∧ getCategorizedPosts [samplePost, samplePost2] [⟨2, 0⟩] = [samplePost2]
    ∧ filterBatchRelevance [samplePost, samplePost2]
        (some "\x7b\"relevant\":[2]\x7d".data) = [samplePost, samplePost2] :=
  ⟨filterBatchRelevance_eq, filterRelevantPosts_eq, fun _ _ => rfl, rfl, rfl, rfl⟩

theorem chunksF_mem_subset {n : Nat} :
    ∀ (fuel : Nat) (l : List Post) (m : List Post) (x : Post),
      m ∈ chunksF n fuel l → x ∈ m → x ∈ l := by
  intro fuel
  induction fuel with
  | zero =>
    intro l m x hm hx
    unfold chunksF at hm
    split at hm
    · exact absurd hm (by simp)
    · rw [List.mem_singleton] at hm
      exact hm ▸ hx
  | succ f ih =>
    intro l m x hm hx
    unfold chunksF at hm
    split at hm
    · exact absurd hm (by simp)
    · rw [List.mem_cons] at hm
      rcases hm with hm | hm
      · exact List.Sublist.mem (hm ▸ hx) (List.take_sublist _ _)
      · exact List.Sublist.mem (ih (l.drop n) m x hm hx) (List.drop_sublist _ _)

theorem filterRelevantPosts_subset {posts : List Post} {oracle : Nat → Option (List Char)}
    {p : Post} (h : p ∈ filterRelevantPosts posts oracle) : p ∈ posts := by
  have hb : p ∈ filterRelevantPostsBody posts oracle := h
  unfold filterRelevantPostsBody at hb
  rw [List.mem_flatten] at hb
  obtain ⟨m, hm, hpm⟩ := hb
  rw [List.mem_map] at hm
  obtain ⟨pair, hpair, heq⟩ := hm
  have hmem : p ∈ pair.2 := filterBatchRelevance_subset (heq ▸ hpm)
  have hchunk : pair.2 ∈ relevanceBatches posts := by
    obtain ⟨hlt, hidx⟩ := List.mem_enum hpair
    exact hidx ▸ List.getElem_mem hlt
  exact chunksF_mem_subset posts.length posts pair.2 p hchunk hmem

theorem perform_posts_subset {posts l : List Post} {q cat : List Char}
    {resp : Option (List Char)}
    (h : performCategorySpecificAnalysis posts q cat resp = .posts l) :
    ∀ p ∈ l, p ∈ posts := by
  unfold performCategorySpecificAnalysis at h
  split at h
  · cases h
    intro p hp
    exact absurd hp (by simp)
  · split at h
    · cases h
      intro p hp
      exact absurd hp (by simp)
    · split at h
      · cases h
        intro p hp
        exact absurd hp (by simp)
      · dsimp only [] at h
        split at h
        · cases h
        · cases h
          intro p hp
          exact getCategorizedPosts_subset hp

theorem aiSentiment_subset {posts : List Post} {resp : Option (List Char)}
    {r : CategorizationResult}
    (h : aiSentimentAnalysis posts resp = .ok r) : bucketsSubset r posts := by
  unfold aiSentimentAnalysis at h
  split at h
  · cases h
  · split at h
    · cases h
    · split at h
      · cases h
        exact ensureAll_subset
          ⟨fun x hx => getCategorizedPosts_subset hx,
           fun x hx => getCategorizedPosts_subset hx,
           fun x hx => getCategorizedPosts_subset hx⟩
      · cases h

/-- Claim C6: oracle-returned indices are used only when
`1 ≤ index ≤ batch size` (out-of-range indices are dropped without failing
the stage), and consequently every post of any output bucket of the
relevance-filter, focused-categorization and bulk-categorization stages is a
member of that stage's input post list - no post is fabricated. -/
theorem index_selection_sound (posts : List Post) (indices : List Decimal)
    (resp respB : Option (List Char)) (oracle : Nat → Option (List Char))
    (r : CategorizationResult) (l : List Post) (q cat : List Char)
    (hb : aiSentimentAnalysis posts respB = .ok r)
    (hf : performCategorySpecificAnalysis posts q cat resp = .posts l) :
    getCategorizedPosts posts indices
      = getCategorizedPosts posts
          (indices.filter (fun i => i.geInt 1 && i.leInt posts.length))
    ∧ (∀ p ∈ getCategorizedPosts posts indices, p ∈ posts)
    ∧ (∀ p ∈ filterBatchRelevance posts resp, p ∈ posts)
    ∧ (∀ p ∈ filterRelevantPosts posts oracle, p ∈ posts)
    ∧ (∀ p ∈ l, p ∈ posts)
    ∧ bucketsSubset r posts := by
  refine ⟨?_, fun p hp => getCategorizedPosts_subset hp,
    fun p hp => filterBatchRelevance_subset hp,
    fun p hp => filterRelevantPosts_subset hp,
    perform_posts_subset hf, aiSentiment_subset hb⟩
  unfold getCategorizedPosts
  rw [List.filter_filter]
  simp only [Bool.and_self]

/-- Witness for C6 on concrete two-post inputs with in- and out-of-range
indices (the bulk run parses to the narrowed index array, whose bucket reads
default to empty lists; the focused run hits the parse-failure path). -/
theorem index_selection_sound_witness :
    aiSentimentAnalysis [samplePost, samplePost2]
      (some "\x7b\"painPoints\":[1,7],\"trendingIdeas\":[2],\"contentIdeas\":[0]\x7d".data)
      = .ok { painPoints := [], trendingIdeas := [], contentIdeas := []
              relevanceAnalysis :=
                { totalRelevantPosts := (([samplePost, samplePost2].length : Nat) : ℚ)
                  relevanceScore := 1, excludedPromotedContent := 0
                  excludedIrrelevantPosts := 0 } }
    ∧ performCategorySpecificAnalysis [samplePost, samplePost2] "q".data "pain-points".data
        (some "garbage".data) = .posts []
    ∧ (∀ p ∈ getCategorizedPosts [samplePost, samplePost2]
          [⟨1, 0⟩, ⟨9, 0⟩, ⟨-3, 0⟩], p ∈ [samplePost, samplePost2]) := by
  refine ⟨rfl, rfl, ?_⟩
  exact (index_selection_sound [samplePost, samplePost2] [⟨1, 0⟩, ⟨9, 0⟩, ⟨-3, 0⟩]
      (some "garbage".data)
      (some "\x7b\"painPoints\":[1,7],\"trendingIdeas\":[2],\"contentIdeas\":[0]\x7d".data)
      (fun _ => none) _ _ "q".data "pain-points".data rfl rfl).2.1

theorem ensureStep1_trending (r : CategorizationResult) (posts : List Post) :
    (ensureStep1 r posts).trendingIdeas = r.trendingIdeas := by
  unfold ensureStep1
  split <;> rfl

theorem ensureStep1_content (r : CategorizationResult) (posts : List Post) :
    (ensureStep1 r posts).contentIdeas = r.contentIdeas := by
  unfold ensureStep1
  split <;> rfl

theorem ensureStep2_pain (r : CategorizationResult) (posts : List Post) :
    (ensureStep2 r posts).painPoints = r.painPoints := by
  unfold ensureStep2
  split <;> rfl

theorem ensureStep2_content (r : CategorizationResult) (posts : List Post) :
    (ensureStep2 r posts).contentIdeas = r.contentIdeas := by
  unfold ensureStep2
  split <;> rfl

theorem ensureStep3_pain (r : CategorizationResult) (posts : List Post) :
    (ensureStep3 r posts).painPoints = r.painPoints := by
  unfold ensureStep3
  split <;> rfl

theorem ensureStep3_trending (r : CategorizationResult) (posts : List Post) :
    (ensureStep3 r posts).trendingIdeas = r.trendingIdeas := by
  unfold ensureStep3
  split <;> rfl

theorem minPosts_ne_zero (posts : List Post) : minPostsPerCategory posts ≠ 0 := by
  unfold minPostsPerCategory
  omega

theorem take_ne_nil_of_ne_nil {l : List Post} {k : Nat} (hl : l ≠ []) (hk : k ≠ 0) :
    l.take k ≠ [] := by
  rw [Ne, List.take_eq_nil_iff]
  tauto

theorem ensureStep1_pain_ne (r : CategorizationResult) (posts : List Post)
    (hp : posts ≠ [])
    (h : r.painPoints ≠ [] ∨ r.trendingIdeas ≠ [] ∨ r.contentIdeas ≠ []) :
    (ensureStep1 r posts).painPoints ≠ [] := by
  unfold ensureStep1
  split
  · rename_i hc
    have hpain : r.painPoints = [] := List.length_eq_zero.mp hc.1
    have happ : r.trendingIdeas ++ r.contentIdeas ≠ [] := by
      rw [Ne, List.append_eq_nil]
      tauto
    exact take_ne_nil_of_ne_nil happ (minPosts_ne_zero posts)
  · rename_i hc
    have hlen : 0 < posts.length := List.length_pos.mpr hp
    intro hnil
    exact hc ⟨by rw [hnil]; rfl, hlen⟩

theorem ensureStep2_trending_ne (r : CategorizationResult) (posts : List Post)
    (hp : posts ≠ []) (hpain : r.painPoints ≠ []) :
    (ensureStep2 r posts).trendingIdeas ≠ [] := by
  unfold ensureStep2
  split
  · rename_i hc
    have happ : r.painPoints ++ r.contentIdeas ≠ [] := by
      rw [Ne, List.append_eq_nil]
      tauto
    exact take_ne_nil_of_ne_nil happ (minPosts_ne_zero posts)
  · rename_i hc
    have hlen : 0 < posts.length := List.length_pos.mpr hp
    intro hnil
    exact hc ⟨by rw [hnil]; rfl, hlen⟩

theorem ensureStep3_content_ne (r : CategorizationResult) (posts : List Post)
    (hp : posts ≠ []) (hpain : r.painPoints ≠ []) :
    (ensureStep3 r posts).contentIdeas ≠ [] := by
  unfold ensureStep3
  split
  · rename_i hc
    have happ : r.painPoints ++ r.trendingIdeas ≠ [] := by
      rw [Ne, List.append_eq_nil]
      tauto
    exact take_ne_nil_of_ne_nil happ (minPosts_ne_zero posts)
  · rename_i hc
    have hlen : 0 < posts.length := List.length_pos.mpr hp
    intro hnil
    exact hc ⟨by rw [hnil]; rfl, hlen⟩

theorem ensureAll_buckets_ne (r : CategorizationResult) (posts : List Post)
    (hp : posts ≠ [])
    (h : r.painPoints ≠ [] ∨ r.trendingIdeas ≠ [] ∨ r.contentIdeas ≠ []) :
    (ensureAllCategoriesHaveResults r posts).painPoints ≠ []
    ∧ (ensureAllCategoriesHaveResults r posts).trendingIdeas ≠ []
    ∧ (ensureAllCategoriesHaveResults r posts).contentIdeas ≠ [] := by
  have h1 : (ensureStep1 r posts).painPoints ≠ [] := ensureStep1_pain_ne r posts hp h
  have h2 : (ensureStep2 (ensureStep1 r posts) posts).painPoints ≠ [] := by
    rw [ensureStep2_pain]
    exact h1
  have h2t : (ensureStep2 (ensureStep1 r posts) posts).trendingIdeas ≠ [] :=
    ensureStep2_trending_ne _ posts hp h1
  unfold ensureAllCategoriesHaveResults
  refine ⟨?_, ?_, ?_⟩
  · rw [ensureStep3_pain]
    exact h2
  · rw [ensureStep3_trending]
    exact h2t
  · exact ensureStep3_content_ne _ posts hp h2

theorem ensureStep1_id_of_ne (r : CategorizationResult) (posts : List Post)
    (h : r.painPoints ≠ []) : ensureStep1 r posts = r := by
  unfold ensureStep1
  split
  · rename_i hc
    exact absurd (List.length_eq_zero.mp hc.1) h
  · rfl

theorem ensureStep2_id_of_ne (r : CategorizationResult) (posts : List Post)
    (h : r.trendingIdeas ≠ []) : ensureStep2 r posts = r := by
  unfold ensureStep2
  split
  · rename_i hc
    exact absurd (List.length_eq_zero.mp hc.1) h
  · rfl

theorem ensureStep3_id_of_ne (r : CategorizationResult) (posts : List Post)
    (h : r.contentIdeas ≠ []) : ensureStep3 r posts = r := by
  unfold ensureStep3
  split
  · rename_i hc
    exact absurd (List.length_eq_zero.mp hc.1) h
  · rfl

theorem ensureAll_id_of_ne (r : CategorizationResult) (posts : List Post)
    (h1 : r.painPoints ≠ []) (h2 : r.trendingIdeas ≠ []) (h3 : r.contentIdeas ≠ []) :
    ensureAllCategoriesHaveResults r posts = r := by
  unfold ensureAllCategoriesHaveResults
  rw [ensureStep1_id_of_ne r posts h1, ensureStep2_id_of_ne r posts h2,
    ensureStep3_id_of_ne r posts h3]

theorem ensureStep1_all_empty (r : CategorizationResult) (posts : List Post)
    (h1 : r.painPoints = []) (h2 : r.trendingIdeas = []) (h3 : r.contentIdeas = []) :
    ensureStep1 r posts = r := by
  unfold ensureStep1
  split
  · rw [h2, h3]
    cases r
    simp_all
  · rfl

theorem ensureStep2_all_empty (r : CategorizationResult) (posts : List Post)
    (h1 : r.painPoints = []) (h2 : r.trendingIdeas = []) (h3 : r.contentIdeas = []) :
    ensureStep2 r posts = r := by
  unfold ensureStep2
  split
  · rw [h1, h3]
    cases r
    simp_all
  · rfl

theorem ensureStep3_all_empty (r : CategorizationResult) (posts : List Post)
    (h1 : r.painPoints = []) (h2 : r.trendingIdeas = []) (h3 : r.contentIdeas = []) :
    ensureStep3 r posts = r := by
  unfold ensureStep3
  split
  · rw [h1, h2]
    cases r
    simp_all
  · rfl

theorem ensureAll_all_empty (r : CategorizationResult) (posts : List Post)
    (h1 : r.painPoints = []) (h2 : r.trendingIdeas = []) (h3 : r.contentIdeas = []) :
    ensureAllCategoriesHaveResults r posts = r := by
  unfold ensureAllCategoriesHaveResults
  rw [ensureStep1_all_empty r posts h1 h2 h3, ensureStep2_all_empty r posts h1 h2 h3,
    ensureStep3_all_empty r posts h1 h2 h3]

theorem ensureStep_id_posts_nil (r : CategorizationResult) :
    ensureStep1 r [] = r ∧ ensureStep2 r [] = r ∧ ensureStep3 r [] = r := by
  refine ⟨?_, ?_, ?_⟩ <;>
    first
    | (unfold ensureStep1; split
       · rename_i hc
         exact absurd hc.2 (by simp)
       · rfl)
    | (unfold ensureStep2; split
       · rename_i hc
         exact absurd hc.2 (by simp)
       · rfl)
    | (unfold ensureStep3; split
       · rename_i hc
         exact absurd hc.2 (by simp)
       · rfl)

theorem ensureAll_posts_nil (r : CategorizationResult) :
    ensureAllCategoriesHaveResults r [] = r := by
  unfold ensureAllCategoriesHaveResults
  rw [(ensureStep_id_posts_nil r).1, (ensureStep_id_posts_nil r).2.1,
    (ensureStep_id_posts_nil r).2.2]

/-- Claim C7 counterexample: with a non-empty original post set but an
all-empty three-way result, the rebalancer leaves every category empty
(there is nothing to borrow from the other two categories), so "each of the
three categories is non-empty after the Rebalancer runs" fails. -/
theorem rebalancer_counterexample :
    ([samplePost] : List Post) ≠ []
    ∧ (ensureAllCategoriesHaveResults emptyResult [samplePost]).painPoints = []
    ∧ (ensureAllCategoriesHaveResults emptyResult [samplePost]).trendingIdeas = []
    ∧ (ensureAllCategoriesHaveResults emptyResult [samplePost]).contentIdeas = [] :=
  ⟨by simp, rfl, rfl, rfl⟩

/-- Claim C7 (amended): provided at least one of the three categories is
non-empty before rebalancing (and the original post set is non-empty), every
category is non-empty afterwards; and each empty category is refilled with
the first `max(1, ⌊originalCount/10⌋)` entries of the other two categories'
current contents (current = as already refilled by the earlier steps). -/
theorem rebalancer_amended (r : CategorizationResult) (posts : List Post)
    (hp : posts ≠ [])
    (h : r.painPoints ≠ [] ∨ r.trendingIdeas ≠ [] ∨ r.contentIdeas ≠ []) :
    ((ensureAllCategoriesHaveResults r posts).painPoints ≠ []
     ∧ (ensureAllCategoriesHaveResults r posts).trendingIdeas ≠ []
     ∧ (ensureAllCategoriesHaveResults r posts).contentIdeas ≠ [])
    ∧ (r.painPoints = [] →
        (ensureAllCategoriesHaveResults r posts).painPoints
          = (r.trendingIdeas ++ r.contentIdeas).take (minPostsPerCategory posts))
    ∧ (r.trendingIdeas = [] →
        (ensureAllCategoriesHaveResults r posts).trendingIdeas
          = ((ensureAllCategoriesHaveResults r posts).painPoints
              ++ r.contentIdeas).take (minPostsPerCategory posts))
    ∧ (r.contentIdeas = [] →
        (ensureAllCategoriesHaveResults r posts).contentIdeas
          = ((ensureAllCategoriesHaveResults r posts).painPoints
              ++ (ensureAllCategoriesHaveResults r posts).trendingIdeas).take
              (minPostsPerCategory posts)) := by
  have hlen : 0 < posts.length := List.length_pos.mpr hp
  refine ⟨ensureAll_buckets_ne r posts hp h, fun hpain => ?_, fun hti => ?_, fun hci => ?_⟩
  · unfold ensureAllCategoriesHaveResults
    rw [ensureStep3_pain, ensureStep2_pain]
    unfold ensureStep1
    rw [if_pos ⟨by rw [hpain]; rfl, hlen⟩]
  · unfold ensureAllCategoriesHaveResults
    rw [ensureStep3_trending, ensureStep3_pain, ensureStep2_pain]
    conv_lhs => unfold ensureStep2
    rw [if_pos ⟨by rw [ensureStep1_trending, hti]; rfl, hlen⟩, ensureStep1_content]
  · unfold ensureAllCategoriesHaveResults
    rw [ensureStep3_pain, ensureStep2_pain, ensureStep3_trending]
    conv_lhs => unfold ensureStep3
    rw [if_pos ⟨by rw [ensureStep2_content, ensureStep1_content, hci]; rfl, hlen⟩,
      ensureStep2_pain]

/-- Witness for C7 (amended) at a concrete result with only `contentIdeas`
non-empty over a two-post original set. -/
theorem rebalancer_amended_witness :
    ([samplePost, samplePost2] : List Post) ≠ []
    ∧ ({ emptyResult with contentIdeas := [samplePost] } :
        CategorizationResult).contentIdeas ≠ []
    ∧ (((ensureAllCategoriesHaveResults { emptyResult with contentIdeas := [samplePost] }
          [samplePost, samplePost2]).painPoints ≠ []
        ∧ (ensureAllCategoriesHaveResults { emptyResult with contentIdeas := [samplePost] }
            [samplePost, samplePost2]).trendingIdeas ≠ []
        ∧ (ensureAllCategoriesHaveResults { emptyResult with contentIdeas := [samplePost] }
            [samplePost, samplePost2]).contentIdeas ≠ [])) := by
  have h := rebalancer_amended { emptyResult with contentIdeas := [samplePost] }
    [samplePost, samplePost2] (by simp) (Or.inr (Or.inr (by simp)))
  exact ⟨by simp, by simp, h.1⟩

/-- Claim C8: the rebalancer is idempotent - applying
`ensureAllCategoriesHaveResults` twice (with the same original post set)
yields the same result as applying it once, for every input. -/
theorem rebalancer_idempotent (r : CategorizationResult) (posts : List Post) :
    ensureAllCategoriesHaveResults (ensureAllCategoriesHaveResults r posts) posts
      = ensureAllCategoriesHaveResults r posts := by
  by_cases hp : posts = []
  · subst hp
    rw [ensureAll_posts_nil, ensureAll_posts_nil]
  · by_cases hall : r.painPoints = [] ∧ r.trendingIdeas = [] ∧ r.contentIdeas = []
    · have h1 : ensureAllCategoriesHaveResults r posts = r :=
        ensureAll_all_empty r posts hall.1 hall.2.1 hall.2.2
      rw [h1]
      exact h1
    · have h : r.painPoints ≠ [] ∨ r.trendingIdeas ≠ [] ∨ r.contentIdeas ≠ [] := by
        tauto
      have hne := ensureAll_buckets_ne r posts hp h
      exact ensureAll_id_of_ne _ posts hne.1 hne.2.1 hne.2.2

theorem padTo6_length : ∀ (fuel : Nat) (l : List FocusArea),
    0 < l.length → l.length ≤ 6 → 6 ≤ l.length + fuel → (padTo6 fuel l).length = 6 := by
  intro fuel
  induction fuel with
  | zero =>
    intro l _ h2 h3
    unfold padTo6
    omega
  | succ f ih =>
    intro l h1 h2 h3
    unfold padTo6
    by_cases hc : l.length < 6 ∧ 0 < l.length
    · rw [if_pos hc]
      have hne : l ≠ [] := by
        intro hnil
        rw [hnil] at h1
        exact absurd h1 (by simp)
      obtain ⟨last, hlast⟩ := Option.isSome_iff_exists.mp
        (Option.ne_none_iff_isSome.mp (mt List.getLast?_eq_none_iff.mp hne))
      rw [hlast]
      have := ih (l ++ [altOf last]) (by simp) (by simp; omega) (by simp; omega)
      simpa using this
    · rw [if_neg hc]
      omega

theorem attemptExpansion_shape {query : List Char} {resp : Option (List Char)}
    {r : List FocusArea} (h : attemptExpansion query resp = some r) :
    r.length = 7 ∧ r.getLast? = some (customFocusArea query) := by
  unfold attemptExpansion at h
  split at h
  · exact absurd h (by simp)
  · split at h
    · exact absurd h (by simp)
    · split at h
      · exact absurd h (by simp)
      · split at h
        · exact absurd h (by simp)
        · split at h
          · exact absurd h (by simp)
          · split at h
            · split at h
              · exact absurd h (by simp)
              · dsimp only [] at h
                split at h
                · exact absurd h (by simp)
                · rename_i elems hne valid hvalid
                  have hr : (padTo6 6 (((elems.filter validFocus).map cleanFocus).take 6)
                      ++ [customFocusArea query]).take 7 = r := by
                    injection h
                  have hlen : (padTo6 6 (((elems.filter validFocus).map cleanFocus).take 6)).length
                      = 6 := by
                    apply padTo6_length
                    · omega
                    · rw [List.length_take]
                      omega
                    · omega
                  have hfull : (padTo6 6 (((elems.filter validFocus).map cleanFocus).take 6)
                      ++ [customFocusArea query]).length = 7 := by
                    rw [List.length_append, hlen]
                    rfl
                  rw [← hr, List.take_of_length_le (le_of_eq hfull)]
                  exact ⟨hfull, List.getLast?_concat _⟩
            · exact absurd h (by simp)

theorem runAttempts_shape {query : List Char} {attempts : List (Option (List Char))}
    {r : List FocusArea} (h : runAttempts query attempts = some r) :
    r.length = 7 ∧ r.getLast? = some (customFocusArea query) := by
  induction attempts with
  | nil => exact absurd h (by simp [runAttempts])
  | cons a rest ih =>
    unfold runAttempts at h
    split at h
    · rename_i v hv
      cases h
      exact attemptExpansion_shape hv
    · exact ih h

theorem getFallback_length (query : List Char) :
    (getFallbackQueryExpansion query).length = 7 := by
  unfold getFallbackQueryExpansion
  dsimp only []
  split_ifs <;> simp

theorem flagFallback_getLast (query : List Char) :
    (flagFallback (getFallbackQueryExpansion query)).getLast?
      = some { customFocusArea query with isFallback := true } := by
  unfold getFallbackQueryExpansion flagFallback
  dsimp only []
  rw [List.map_append]
  exact List.getLast?_concat _

/-- Claim C3: for every query (and any outcome of the up-to-3 oracle
attempts), `generateQueryExpansion` returns exactly 7 focus areas, and the
last one has category `"custom"`, `isCustom = true`, and `expandedQuery`
equal to the original query verbatim - on the oracle path and on the
deterministic fallback path alike. -/
theorem generateQueryExpansion_seven_custom_last (query : List Char)
    (attempts : List (Option (List Char))) :
    (generateQueryExpansion query attempts).length = 7
    ∧ ∃ last, (generateQueryExpansion query attempts).getLast? = some last
        ∧ last.category = Json.str "custom".data
        ∧ last.isCustom = true
        ∧ last.expandedQuery = query := by
  unfold generateQueryExpansion
  cases hr : runAttempts query attempts with
  | some v =>
    obtain ⟨h1, h2⟩ := runAttempts_shape hr
    exact ⟨h1, customFocusArea query, h2, rfl, rfl, rfl⟩
  | none =>
    refine ⟨?_, { customFocusArea query with isFallback := true },
      flagFallback_getLast query, rfl, rfl, rfl⟩
    unfold flagFallback
    rw [List.length_map]
    exact getFallback_length query

/-- Claim C4: when every oracle attempt yields invalid output,
`generateQueryExpansion` degrades to the deterministic keyword-templated
fallback instead of surfacing an error, every returned entry (including the
custom slot) carries `isFallback = true`, and the entry count is 6 or 7 (in
this implementation every domain template yields 6 entries plus the custom
slot, hence 7). -/
theorem generateQueryExpansion_fallback_flagged (query : List Char)
    (attempts : List (Option (List Char)))
    (h : runAttempts query attempts = none) :
    generateQueryExpansion query attempts = flagFallback (getFallbackQueryExpansion query)
    ∧ (∀ f ∈ generateQueryExpansion query attempts, f.isFallback = true)
    ∧ ((generateQueryExpansion query attempts).length = 6
       ∨ (generateQueryExpansion query attempts).length = 7) := by
  have heq : generateQueryExpansion query attempts
      = flagFallback (getFallbackQueryExpansion query) := by
    unfold generateQueryExpansion
    rw [h]
  refine ⟨heq, ?_, ?_⟩
  · rw [heq]
    intro f hf
    rw [flagFallback, List.mem_map] at hf
    obtain ⟨g, _, hg⟩ := hf
    rw [← hg]
  · right
    rw [heq]
    unfold flagFallback
    rw [List.length_map]
    exact getFallback_length query

/-- Witness for C4: three failed oracle calls on a concrete query. -/
theorem generateQueryExpansion_fallback_flagged_witness :
    runAttempts "team morale".data [none, none, none] = none
    ∧ (generateQueryExpansion "team morale".data [none, none, none]
        = flagFallback (getFallbackQueryExpansion "team morale".data)
       ∧ (∀ f ∈ generateQueryExpansion "team morale".data [none, none, none],
           f.isFallback = true)
       ∧ ((generateQueryExpansion "team morale".data [none, none, none]).length = 6
          ∨ (generateQueryExpansion "team morale".data [none, none, none]).length = 7)) :=
  ⟨rfl, generateQueryExpansion_fallback_flagged "team morale".data [none, none, none] rfl⟩

theorem trialScan_some : ∀ (n : Nat) (l t : List Char), trialScan n l = some t →
    ∃ k, 1 ≤ k ∧ k ≤ n ∧ t = l.take k ∧ jsonParses t = true
      ∧ ∀ m, k < m → m ≤ n → jsonParses (l.take m) = false := by
  intro n
  induction n with
  | zero =>
    intro l t h
    exact absurd h (by simp [trialScan])
  | succ e ih =>
    intro l t h
    unfold trialScan at h
    dsimp only [] at h
    split at h
    · rename_i hp
      cases h
      exact ⟨e + 1, by omega, le_rfl, rfl, hp, fun m hm1 hm2 => by omega⟩
    · rename_i hp
      obtain ⟨k, hk1, hk2, hk3, hk4, hk5⟩ := ih l t h
      refine ⟨k, hk1, by omega, hk3, hk4, fun m hm1 hm2 => ?_⟩
      by_cases hme : m ≤ e
      · exact hk5 m hm1 hme
      · have : m = e + 1 := by omega
        rw [this]
        exact Bool.not_eq_true _ ▸ (by simpa using hp)

theorem trialScan_none : ∀ (n : Nat) (l : List Char), trialScan n l = none →
    ∀ m, 1 ≤ m → m ≤ n → jsonParses (l.take m) = false := by
  intro n
  induction n with
  | zero =>
    intro l _ m hm1 hm2
    omega
  | succ e ih =>
    intro l h m hm1 hm2
    unfold trialScan at h
    dsimp only [] at h
    split at h
    · exact absurd h (by simp)
    · rename_i hp
      by_cases hme : m ≤ e
      · exact ih l h m hm1 hme
      · have : m = e + 1 := by omega
        rw [this]
        simpa using hp

/-- Claim C2: when the bracket-depth matching of `extractJSON` fails on the
cleaned text (unbalanced brackets), the function returns the largest prefix
of the cleaned text accepted by `JSON.parse`; when no prefix parses, it
returns the cleaned text itself - never `null`. -/
theorem extractJSON_unbalanced_largest_prefix (input : List Char)
    (hne : trimJS input ≠ [])
    (hscan : scanTake (cleanJSON input) = none) :
    ∃ t, extractJSON input = some t
      ∧ ((∃ k, 1 ≤ k ∧ t = (cleanJSON input).take k ∧ jsonParses t = true
            ∧ ∀ m, k < m → m ≤ (cleanJSON input).length →
                jsonParses ((cleanJSON input).take m) = false)
         ∨ (t = cleanJSON input
            ∧ ∀ m, 1 ≤ m → m ≤ (cleanJSON input).length →
                jsonParses ((cleanJSON input).take m) = false)) := by
  unfold extractJSON
  rw [if_neg hne]
  dsimp only []
  rw [hscan]
  cases htr : trialScan (cleanJSON input).length (cleanJSON input) with
  | some m =>
    obtain ⟨k, hk1, hk2, hk3, hk4, hk5⟩ := trialScan_some _ _ _ htr
    exact ⟨m, rfl, Or.inl ⟨k, hk1, hk3, hk4, hk5⟩⟩
  | none =>
    exact ⟨cleanJSON input, rfl, Or.inr ⟨rfl, trialScan_none _ _ htr⟩⟩

/-- Witness for C2: a truncated-looking text whose literal bracket counts
never balance (the `]` sits inside a string literal) but which parses as
JSON in full, so the trial-parse fallback returns the whole cleaned text as
its own largest valid prefix. -/
theorem extractJSON_unbalanced_largest_prefix_witness :
    trimJS "[\"[\"]".data ≠ []
    ∧ scanTake (cleanJSON "[\"[\"]".data) = none
    ∧ (∃ t, extractJSON "[\"[\"]".data = some t
        ∧ ((∃ k, 1 ≤ k ∧ t = (cleanJSON "[\"[\"]".data).take k ∧ jsonParses t = true
              ∧ ∀ m, k < m → m ≤ (cleanJSON "[\"[\"]".data).length →
                  jsonParses ((cleanJSON "[\"[\"]".data).take m) = false)
           ∨ (t = cleanJSON "[\"[\"]".data
              ∧ ∀ m, 1 ≤ m → m ≤ (cleanJSON "[\"[\"]".data).length →
                  jsonParses ((cleanJSON "[\"[\"]".data).take m) = false))) :=
  ⟨by decide, rfl, extractJSON_unbalanced_largest_prefix "[\"[\"]".data (by decide) rfl⟩

/-- The backtick character (written via its code point). -/
def backtickCh : Char := Char.ofNat 96

theorem charLower_eq_backtick {c : Char} (h : charLower c = backtickCh) : c = backtickCh := by
  unfold charLower at h
  split at h
  · rename_i hc
    exfalso
    have h1 : (65 : Nat) ≤ c.toNat := hc.1
    have h2 : c.toNat ≤ 90 := hc.2
    have hval : (c.toNat + 32).isValidChar := Or.inl (by omega)
    have h3 : (Char.ofNat (c.toNat + 32)).toNat = c.toNat + 32 := by
      rw [Char.ofNat, dif_pos hval]
      rfl
    rw [h] at h3
    have h4 : backtickCh.toNat = 96 := rfl
    omega
  · exact h

theorem matchCI_backtick_none {ps cs : List Char} {c : Char} (hc : c ≠ backtickCh) :
    matchCI (backtickCh :: ps) (c :: cs) = none := by
  unfold matchCI
  rw [if_neg (fun h => hc (charLower_eq_backtick h))]

theorem stripPass_cons {pat : List Char} (hpat : pat.head? = some backtickCh)
    {c : Char} (hc : c ≠ backtickCh) (f : Nat) (cs : List Char) :
    stripPass pat (f + 1) (c :: cs) = c :: stripPass pat f cs := by
  cases pat with
  | nil => cases hpat
  | cons p0 ps =>
    have hp0 : p0 = backtickCh := by
      injection hpat
    subst hp0
    conv_lhs => unfold stripPass
    simp only [matchCI_backtick_none hc]

theorem stripPass_id {pat : List Char} (hpat : pat.head? = some backtickCh) :
    ∀ (fuel : Nat) (l : List Char), backtickCh ∉ l → stripPass pat fuel l = l := by
  intro fuel
  induction fuel with
  | zero =>
    intro l _
    rfl
  | succ f ih =>
    intro l hl
    cases l with
    | nil => rfl
    | cons c cs =>
      have hc : c ≠ backtickCh := fun h => hl (h ▸ List.mem_cons_self c cs)
      rw [stripPass_cons hpat hc, ih cs (fun h => hl (List.mem_cons_of_mem c h))]

theorem stripPass_append {pat : List Char} (hpat : pat.head? = some backtickCh) :
    ∀ (s : List Char), backtickCh ∉ s → ∀ (f : Nat) (t : List Char),
      stripPass pat (s.length + f) (s ++ t) = s ++ stripPass pat f t := by
  intro s
  induction s with
  | nil =>
    intro _ f t
    simp
  | cons c s' ih =>
    intro hs f t
    have hc : c ≠ backtickCh := fun h => hs (h ▸ List.mem_cons_self c s')
    have hfe : (c :: s').length + f = (s'.length + f) + 1 := by
      simp
      omega
    rw [hfe, List.cons_append, stripPass_cons hpat hc,
      ih (fun h => hs (List.mem_cons_of_mem c h)) f t, List.cons_append]

theorem stripPass_fence1 (f : Nat) (rest : List Char) :
    stripPass "```json".data (f + 1) ("```json\n".data ++ rest)
      = stripPass "```json".data f rest := rfl

theorem stripPass_tail1 : stripPass "```json".data 11 "\n```".data = "\n```".data := rfl

theorem stripPass_tail2 : stripPass "```".data 4 "\n```".data = "\n".data := rfl

theorem trimLeftJS_append (p q : List Char) (hq : List.dropWhile jsWs q = q) :
    trimLeftJS (p ++ q) = trimLeftJS p ++ q := by
  unfold trimLeftJS
  rw [List.dropWhile_append]
  split
  · rename_i he
    have hpe : List.dropWhile jsWs p = [] := by
      simpa using he
    rw [hq, hpe]
    rfl
  · rfl

theorem trimJS_concat (p j t : List Char)
    (hjne : j ≠ [])
    (hhead : ∀ c, j.head? = some c → jsWs c = false)
    (hlastw : ∀ c, j.getLast? = some c → jsWs c = false)
    (htws : ∀ c ∈ t, jsWs c = true) :
    trimJS (p ++ (j ++ t)) = trimLeftJS p ++ j := by
  obtain ⟨c, j', hcj⟩ : ∃ c j', j = c :: j' := by
    cases j with
    | nil => exact absurd rfl hjne
    | cons c j' => exact ⟨c, j', rfl⟩
  have hcw : jsWs c = false := hhead c (by rw [hcj]; rfl)
  have hjq : List.dropWhile jsWs (j ++ t) = j ++ t := by
    rw [hcj, List.cons_append, List.dropWhile_cons, if_neg (by simp [hcw])]
  obtain ⟨lc, r', hrev⟩ : ∃ lc r', j.reverse = lc :: r' := by
    cases hr : j.reverse with
    | nil => exact absurd (by simpa using congrArg List.reverse hr) hjne
    | cons lc r' => exact ⟨lc, r', rfl⟩
  have hlcw : jsWs lc = false := by
    apply hlastw
    rw [← List.head?_reverse, hrev]
    rfl
  unfold trimJS
  rw [trimLeftJS_append p (j ++ t) hjq, ← List.append_assoc, List.reverse_append,
    List.reverse_append]
  have ht0 : List.dropWhile jsWs t.reverse = [] :=
    List.dropWhile_eq_nil_iff.mpr (fun x hx => htws x (List.mem_reverse.mp hx))
  have hjrev : List.dropWhile jsWs (j.reverse ++ (List.dropWhile jsWs p).reverse)
      = j.reverse ++ (List.dropWhile jsWs p).reverse := by
    rw [hrev, List.cons_append, List.dropWhile_cons, if_neg (by simp [hlcw])]
  unfold trimLeftJS
  rw [List.dropWhile_append, ht0]
  simp only [List.isEmpty_nil, if_true]
  rw [hjrev, List.reverse_append, List.reverse_reverse, List.reverse_reverse]

theorem findChar_cons (c a : Char) (t : List Char) :
    findChar c (a :: t) = if a = c then some 0 else (findChar c t).map (· + 1) := rfl

theorem findChar_append_not_mem {c : Char} {s : List Char} (hs : c ∉ s) (l : List Char) :
    findChar c (s ++ l) = (findChar c l).map (· + s.length) := by
  induction s with
  | nil =>
    cases h : findChar c l <;> simp [h]
  | cons a s' ih =>
    have ha : ¬a = c := fun h => hs (h ▸ List.mem_cons_self a s')
    have hs' : c ∉ s' := fun h => hs (List.mem_cons_of_mem a h)
    rw [List.cons_append, findChar_cons, if_neg ha, ih hs']
    cases h : findChar c l with
    | none => simp [h]
    | some v =>
      simp [h]
      omega

theorem findChar_not_mem {c : Char} {l : List Char} (h : c ∉ l) : findChar c l = none := by
  induction l with
  | nil => rfl
  | cons a t ih =>
    have ha : ¬a = c := fun hc => h (hc ▸ List.mem_cons_self a t)
    rw [findChar_cons, if_neg ha, ih (fun hm => h (List.mem_cons_of_mem a hm))]
    rfl

theorem findChar_head {c : Char} {j' : List Char} : findChar c (c :: j') = some 0 := by
  rw [findChar_cons, if_pos rfl]

theorem dropProse_concat (p0 j : List Char)
    (hp1 : '[' ∉ p0) (hp2 : '\x7b' ∉ p0)
    (hj : j.head? = some '[' ∨ (j.head? = some '\x7b' ∧ '[' ∉ j)) :
    dropProse (p0 ++ j) = j := by
  rcases hj with hj | ⟨hj, hnm⟩
  · obtain ⟨j', hcj⟩ : ∃ j', j = '[' :: j' := by
      cases j with
      | nil => cases hj
      | cons c j' =>
        have hc : c = '[' := by injection hj
        exact ⟨j', by rw [hc]⟩
    have hfind : findChar '[' (p0 ++ j) = some p0.length := by
      rw [findChar_append_not_mem hp1, hcj, findChar_head]
      simp
    unfold dropProse
    rw [hfind]
    dsimp only []
    by_cases h0 : 0 < p0.length
    · rw [if_pos h0, List.drop_left]
    · rw [if_neg h0]
      have hp0 : p0 = [] := List.length_eq_zero.mp (by omega)
      rw [hp0]
      rfl
  · obtain ⟨j', hcj⟩ : ∃ j', j = '\x7b' :: j' := by
      cases j with
      | nil => cases hj
      | cons c j' =>
        have hc : c = '\x7b' := by injection hj
        exact ⟨j', by rw [hc]⟩
    have hfind1 : findChar '[' (p0 ++ j) = none :=
      findChar_not_mem (by
        rw [List.mem_append]
        rintro (h | h)
        · exact hp1 h
        · exact hnm h)
    have hfind2 : findChar '\x7b' (p0 ++ j) = some p0.length := by
      rw [findChar_append_not_mem hp2, hcj, findChar_head]
      simp
    unfold dropProse
    rw [hfind1, hfind2]
    dsimp only []
    by_cases h0 : 0 < p0.length
    · rw [if_pos h0, List.drop_left]
    · rw [if_neg h0]
      have hp0 : p0 = [] := List.length_eq_zero.mp (by omega)
      rw [hp0]
      rfl

theorem scanTake_ne_nil {j t : List Char} (h : scanTake j = some t) : j ≠ [] := by
  intro hj
  rw [hj] at h
  cases h

theorem scanTake_head {j t : List Char} (h : scanTake j = some t) :
    j.head? = some '[' ∨ j.head? = some '\x7b' := by
  unfold scanTake at h
  split at h
  · cases h
  · rename_i c rest
    split at h
    · rename_i hc
      exact Or.inl (by rw [hc]; rfl)
    · split at h
      · rename_i hc2
        exact Or.inr (by rw [hc2]; rfl)
      · cases h

/-- Claim C1 counterexample: the input `{"a":[1]}` is itself a syntactically
valid JSON object (no prose, no fences), but `extractJSON` prefers the first
`[` over the object start and returns the inner `[1]`, not the JSON text it
was given. -/
theorem extractJSON_exact_counterexample :
    jsonParses "\x7b\"a\":[1]\x7d".data = true
    ∧ extractJSON "\x7b\"a\":[1]\x7d".data = some "[1]".data
    ∧ "[1]".data ≠ "\x7b\"a\":[1]\x7d".data :=
  ⟨by decide, rfl, by decide⟩

/-- Claim C1 (amended): `extractJSON` returns exactly the embedded JSON text
(after optional prose and/or a markdown fence) provided (a) the prose
contains no `[`, `{` or backtick, (b) the JSON text contains no backtick,
(c) when the JSON text is an object it contains no `[` anywhere (otherwise
the array-first preference truncates it), and (d) the bracket-depth scan of
the JSON text - which counts every bracket character, including those inside
string literals - first returns to zero exactly at its final closing
bracket. -/
theorem extractJSON_exact_amended (p j : List Char)
    (hp1 : '[' ∉ p) (hp2 : '\x7b' ∉ p) (hp3 : backtickCh ∉ p)
    (hj3 : backtickCh ∉ j)
    (hjson : jsonParses j = true)
    (hscan : scanTake j = some j)
    (hlast : j.getLast? = some ']' ∨ j.getLast? = some '\x7d')
    (hobj : j.head? = some '\x7b' → '[' ∉ j) :
    extractJSON (p ++ j) = some j
    ∧ extractJSON ("```json\n".data ++ (p ++ (j ++ "\n```".data))) = some j := by
  have hjne : j ≠ [] := scanTake_ne_nil hscan
  have hhead := scanTake_head hscan
  have hheadw : ∀ c, j.head? = some c → jsWs c = false := by
    intro c hc
    rcases hhead with h | h <;>
      (rw [h] at hc
       injection hc with hcc
       rw [← hcc]
       decide)
  have hlastw : ∀ c, j.getLast? = some c → jsWs c = false := by
    intro c hc
    rcases hlast with h | h <;>
      (rw [h] at hc
       injection hc with hcc
       rw [← hcc]
       decide)
  have hp0_1 : '[' ∉ trimLeftJS p :=
    fun h => hp1 (List.Sublist.mem h (List.dropWhile_sublist _))
  have hp0_2 : '\x7b' ∉ trimLeftJS p :=
    fun h => hp2 (List.Sublist.mem h (List.dropWhile_sublist _))
  have hp0_3 : backtickCh ∉ trimLeftJS p :=
    fun h => hp3 (List.Sublist.mem h (List.dropWhile_sublist _))
  have main : ∀ input : List Char,
      trimJS (stripFences (trimJS input)) = trimLeftJS p ++ j →
      extractJSON input = some j := by
    intro input hc1
    have hclean : cleanJSON input = j := by
      unfold cleanJSON
      rw [hc1]
      apply dropProse_concat _ _ hp0_1 hp0_2
      rcases hhead with h | h
      · exact Or.inl h
      · exact Or.inr ⟨h, hobj h⟩
    have hne2 : trimJS input ≠ [] := by
      intro h0
      rw [h0] at hc1
      have : ([] : List Char) = trimLeftJS p ++ j := hc1
      exact hjne (List.append_eq_nil.mp this.symm).2
    unfold extractJSON
    rw [if_neg hne2]
    dsimp only []
    rw [hclean, hscan]
  constructor
  · apply main
    have t0 : trimJS (p ++ j) = trimLeftJS p ++ j := by
      have h := trimJS_concat p j [] hjne hheadw hlastw (by simp)
      simpa using h
    have hbt : backtickCh ∉ trimLeftJS p ++ j := by
      rw [List.mem_append]
      rintro (h | h)
      · exact hp0_3 h
      · exact hj3 h
    have s0 : stripFences (trimLeftJS p ++ j) = trimLeftJS p ++ j := by
      unfold stripFences
      dsimp only []
      rw [stripPass_id (show ("```json".data).head? = some backtickCh from rfl) _ _ hbt,
        stripPass_id (show ("```".data).head? = some backtickCh from rfl) _ _ hbt]
    have t1 : trimJS (trimLeftJS p ++ j) = trimLeftJS p ++ j := by
      have h := trimJS_concat (trimLeftJS p) j [] hjne hheadw hlastw (by simp)
      have hid : trimLeftJS (trimLeftJS p) = trimLeftJS p := List.dropWhile_idempotent _ _
      rw [hid] at h
      simpa using h
    rw [t0, s0, t1]
  · apply main
    have hne0 : ("```json\n".data ++ (p ++ (j ++ "\n```".data))) ≠ [] :=
      List.append_ne_nil_of_left_ne_nil (by decide) _
    have hheadIn : ∀ c, ("```json\n".data ++ (p ++ (j ++ "\n```".data))).head? = some c →
        jsWs c = false := by
      intro c hc
      have h0 : ("```json\n".data ++ (p ++ (j ++ "\n```".data))).head? = some backtickCh := rfl
      rw [h0] at hc
      injection hc with hcc
      rw [← hcc]
      decide
    have hlastIn : ∀ c, ("```json\n".data ++ (p ++ (j ++ "\n```".data))).getLast? = some c →
        jsWs c = false := by
      intro c hc
      have hT : ("\n```".data).getLast? = some backtickCh := rfl
      rw [List.getLast?_append, List.getLast?_append, List.getLast?_append, hT] at hc
      have hc2 : some backtickCh = some c := hc
      injection hc2 with hcc
      rw [← hcc]
      decide
    have tIn : trimJS ("```json\n".data ++ (p ++ (j ++ "\n```".data)))
        = "```json\n".data ++ (p ++ (j ++ "\n```".data)) := by
      have h := trimJS_concat [] ("```json\n".data ++ (p ++ (j ++ "\n```".data))) []
        hne0 hheadIn hlastIn (by simp)
      simpa using h
    have pass1 : stripPass "```json".data
        ("```json\n".data ++ (p ++ (j ++ "\n```".data))).length
        ("```json\n".data ++ (p ++ (j ++ "\n```".data)))
        = p ++ (j ++ "\n```".data) := by
      have hT4 : ("\n```".data).length = 4 := rfl
      have hF8 : ("```json\n".data).length = 8 := rfl
      have e1 : ("```json\n".data ++ (p ++ (j ++ "\n```".data))).length
          = ((p ++ (j ++ "\n```".data)).length + 7) + 1 := by
        simp only [List.length_append, hT4, hF8]
        omega
      have e2 : (p ++ (j ++ "\n```".data)).length + 7
          = p.length + ((j ++ "\n```".data).length + 7) := by
        simp only [List.length_append, hT4]
        omega
      have e3 : (j ++ "\n```".data).length + 7 = j.length + 11 := by
        simp only [List.length_append, hT4]
      rw [e1, stripPass_fence1, e2,
        stripPass_append (show ("```json".data).head? = some backtickCh from rfl) p hp3, e3,
        stripPass_append (show ("```json".data).head? = some backtickCh from rfl) j hj3,
        stripPass_tail1]
    have pass2 : stripPass "```".data (p ++ (j ++ "\n```".data)).length
        (p ++ (j ++ "\n```".data)) = p ++ (j ++ "\n".data) := by
      have hT4 : ("\n```".data).length = 4 := rfl
      have e4 : (p ++ (j ++ "\n```".data)).length
          = p.length + ((j ++ "\n```".data)).length := List.length_append _ _
      have e5 : (j ++ "\n```".data).length = j.length + 4 := by
        simp only [List.length_append, hT4]
      rw [e4, stripPass_append (show ("```".data).head? = some backtickCh from rfl) p hp3, e5,
        stripPass_append (show ("```".data).head? = some backtickCh from rfl) j hj3,
        stripPass_tail2]
    have hsf : stripFences ("```json\n".data ++ (p ++ (j ++ "\n```".data)))
        = p ++ (j ++ "\n".data) := by
      unfold stripFences
      dsimp only []
      rw [pass1, pass2]
    rw [tIn, hsf]
    exact trimJS_concat p j "\n".data hjne hheadw hlastw (by decide)

/-- Witness for C1 (amended): prose followed by a JSON array, bare and
fence-wrapped. -/
theorem extractJSON_exact_amended_witness :
    ('[' ∉ "Sure, here it is: ".data ∧ '\x7b' ∉ "Sure, here it is: ".data
     ∧ backtickCh ∉ "Sure, here it is: ".data
     ∧ backtickCh ∉ "[1, \x7b\"a\": 2\x7d]".data
     ∧ jsonParses "[1, \x7b\"a\": 2\x7d]".data = true
     ∧ scanTake "[1, \x7b\"a\": 2\x7d]".data = some "[1, \x7b\"a\": 2\x7d]".data)
    ∧ (extractJSON ("Sure, here it is: ".data ++ "[1, \x7b\"a\": 2\x7d]".data)
        = some "[1, \x7b\"a\": 2\x7d]".data
       ∧ extractJSON ("```json\n".data ++ ("Sure, here it is: ".data
           ++ ("[1, \x7b\"a\": 2\x7d]".data ++ "\n```".data)))
        = some "[1, \x7b\"a\": 2\x7d]".data) :=
  ⟨⟨by decide, by decide, by decide, by decide, by decide, rfl⟩,
   extractJSON_exact_amended "Sure, here it is: ".data "[1, \x7b\"a\": 2\x7d]".data
     (by decide) (by decide) (by decide) (by decide) (by decide) rfl
     (by decide) (by decide)⟩

end InsightSnap
